import Mathlib

/-!
Shallow embedding of `resume_print.py` (Klipper print-resume tool).

A document line is modelled as a list of characters (`Line`), exactly the
character sequence Python holds for that line.  Heights and temperatures are
modelled as exact rationals; every regular-expression match of the source is
translated into an explicit character-level matcher with Python's
leftmost-then-greedy semantics.  A Python `float(...)` call that can raise
`ValueError` is modelled as an `Option`-valued parse, and the one scanner that
does not catch that exception (`find_layer_changes_with_z`) is therefore
`Option`-valued, `none` meaning the tool aborts with an uncaught exception.
-/

abbrev Line := List Char

/-- Python `str.strip` whitespace set: space, tab, newline, carriage return,
vertical tab, form feed. -/
def isPySpace (c : Char) : Bool :=
  c = ' ' || c = '\t' || c = '\n' || c = '\r' || c = '\x0b' || c = '\x0c'

/-- Python `str.strip()`: drop leading and trailing whitespace. -/
def pyStrip (l : Line) : Line :=
  ((l.dropWhile isPySpace).reverse.dropWhile isPySpace).reverse

/-- ASCII lowering, used to model `re.IGNORECASE` matching. -/
def pyLower (l : Line) : Line := l.map Char.toLower

/-- Leftmost search: try the positional matcher at every suffix, left to
right, returning the first success.  Models `re.search`. -/
def firstSearch {α : Type} (f : Line → Option α) : Line → Option α
  | [] => f []
  | c :: cs =>
    match f (c :: cs) with
    | some r => some r
    | none => firstSearch f cs

/-- Rightmost search: try the positional matcher at every suffix, preferring
the rightmost success.  Models a greedy `.*` before a sub-pattern. -/
def lastSearch {α : Type} (f : Line → Option α) : Line → Option α
  | [] => f []
  | c :: cs =>
    match lastSearch f cs with
    | some r => some r
    | none => f (c :: cs)

/-- Membership of `pat` as a contiguous substring (Python `pat in s`). -/
def containsStr (pat : Line) (l : Line) : Bool :=
  match l with
  | [] => pat.isPrefixOf ([] : Line)
  | c :: cs => pat.isPrefixOf (c :: cs) || containsStr pat cs

/-- Value of a nonempty digit string (Python `int` on a `\d+` group). -/
def digitsToNat (g : List Char) : ℕ :=
  g.foldl (fun n c => 10 * n + (c.toNat - 48)) 0

/-- Exact rational subtraction, written out on numerator and denominator so
that it evaluates inside the kernel (`qSub_eq_sub` proves it is `a - b`). -/
def qSub (a b : ℚ) : ℚ :=
  mkRat (a.num * (b.den : ℤ) - b.num * (a.den : ℤ)) (a.den * b.den)

/-- Exact rational multiplication on numerator and denominator
(`qMul_eq_mul` proves it is `a * b`). -/
def qMul (a b : ℚ) : ℚ :=
  mkRat (a.num * b.num) (a.den * b.den)

/-- Exact rational negation (`qNeg_eq_neg` proves it is `-a`). -/
def qNeg (a : ℚ) : ℚ :=
  mkRat (-a.num) a.den

/-- The exact rational value of a natural number. -/
def qOfNat (n : ℕ) : ℚ :=
  mkRat (Int.ofNat n) 1

/-- Python `float` on a string drawn from the character class `[0-9.]`:
defined exactly when there is at most one dot and at least one digit. -/
def parseUnsigned? (cs : List Char) : Option ℚ :=
  let a := cs.takeWhile Char.isDigit
  match cs.dropWhile Char.isDigit with
  | [] => if a.isEmpty then none else some (qOfNat (digitsToNat a))
  | '.' :: b =>
    if b.all Char.isDigit && !(a.isEmpty && b.isEmpty) then
      some (mkRat (Int.ofNat (digitsToNat a * 10 ^ b.length + digitsToNat b)) (10 ^ b.length))
    else none
  | _ => none

/-- Python `float` on a string drawn from the class `[-0-9.]`: an optional
leading minus sign, then an unsigned decimal literal. -/
def parseFloat? (cs : List Char) : Option ℚ :=
  match cs with
  | '-' :: rest => (parseUnsigned? rest).map qNeg
  | _ => parseUnsigned? cs

/-! ### Marker Scanner (`find_layer_changes_with_z`, source lines 132-175) -/

/-- Anchored match of `^;Z:([0-9.]+)` on a stripped line; returns the greedy
capture group. -/
def zGroup? (s : Line) : Option (List Char) :=
  match s with
  | ';' :: 'Z' :: ':' :: rest =>
    let g := rest.takeWhile (fun c => c.isDigit || c = '.')
    if g.isEmpty then none else some g
  | _ => none

/-- Anchored match of `^; layer \d+, z = ([0-9.]+)` on a stripped line;
returns the greedy capture group. -/
def layerZGroup? (s : Line) : Option (List Char) :=
  if ("; layer ".data).isPrefixOf s then
    let r1 := s.drop 8
    let ds := r1.takeWhile Char.isDigit
    if ds.isEmpty then none
    else
      let r2 := r1.drop ds.length
      if (", z = ".data).isPrefixOf r2 then
        let g := (r2.drop 6).takeWhile (fun c => c.isDigit || c = '.')
        if g.isEmpty then none else some g
      else none
  else none

/-- Anchored match of `^;LAYER:(\d+)` (case sensitive, as used in the
look-back window of the marker scanner). -/
def layerNumMatch (s : Line) : Bool :=
  (";LAYER:".data).isPrefixOf s &&
    (match s.drop 7 with
     | c :: _ => c.isDigit
     | [] => false)

/-- Look-back window test of the marker scanner:
`';LAYER_CHANGE' in content[j] or re.match(r'^;LAYER:(\d+)', content[j].strip())`. -/
def isLayerChangeLine (l : Line) : Bool :=
  containsStr (";LAYER_CHANGE".data) l || layerNumMatch (pyStrip l)

/-- Back-date a `;Z:` marker at line `i` to the first line of
`range(max(0, i-5), i)` that carries a layer-change marker, if any
(source lines 155-160). -/
def backdate (content : List Line) (i : ℕ) : ℕ :=
  match (List.range' (i - 5) (i - (i - 5))).find?
      (fun j => isLayerChangeLine (content.getD j [])) with
  | some j => j
  | none => i

/-- One iteration of the marker-scanner loop at line `i`:
`none` = uncaught `ValueError` from `float`, `some none` = no marker,
`some (some m)` = marker appended. -/
def markerAt (content : List Line) (i : ℕ) (line : Line) : Option (Option (ℕ × ℚ)) :=
  match zGroup? (pyStrip line) with
  | some g =>
    match parseUnsigned? g with
    | some z => some (some (backdate content i, z))
    | none => none
  | none =>
    match layerZGroup? (pyStrip line) with
    | some g =>
      match parseUnsigned? g with
      | some z => some (some (i, z))
      | none => none
    | none => some none

/-- The marker-scanner loop over the remaining `(index, line)` pairs. -/
def markersFrom (content : List Line) : List (ℕ × Line) → Option (List (ℕ × ℚ))
  | [] => some []
  | p :: rest =>
    match markerAt content p.1 p.2 with
    | none => none
    | some none => markersFrom content rest
    | some (some m) =>
      match markersFrom content rest with
      | none => none
      | some ms => some (m :: ms)

/-- `find_layer_changes_with_z`: ordered `(line, height)` markers from slicer
comments; `none` when an unparseable height group raises `ValueError`. -/
def find_layer_changes_with_z (content : List Line) : Option (List (ℕ × ℚ)) :=
  markersFrom content (List.enumFrom 0 content)

/-! ### Legacy layer-marker scanner (`find_layer_changes`, lines 177-192) -/

/-- Case-insensitive positional match of `;LAYER:(\d+)` (on a lowered line). -/
def layerNumAtCI (t : Line) : Bool :=
  (";layer:".data).isPrefixOf t &&
    (match t.drop 7 with
     | c :: _ => c.isDigit
     | [] => false)

/-- A raw line matching one of the legacy layer-change patterns, each searched
with `re.IGNORECASE`, the last one anchored at the start of the line. -/
def isLegacyLayerLine (l : Line) : Bool :=
  let low := pyLower l
  containsStr (";layer_change".data) low ||
  (match firstSearch (fun t => if layerNumAtCI t then some () else none) low with
   | some _ => true
   | none => false) ||
  containsStr (";before_layer_change".data) low ||
  (("; layer ".data).isPrefixOf low &&
    (match low.drop 8 with
     | c :: _ => c.isDigit
     | [] => false))

/-- `find_layer_changes`: line indices of legacy layer-change markers. -/
def find_layer_changes (content : List Line) : List ℕ :=
  ((List.enumFrom 0 content).filter (fun p => isLegacyLayerLine p.2)).map Prod.fst

/-! ### Motion Scanner (`find_z_moves`, lines 194-214) -/

/-- Positional match of `Z([-0-9.]+)`: a `Z` followed by at least one
character of the class, the greedy group. -/
def zTailGroup? (t : Line) : Option (List Char) :=
  match t with
  | 'Z' :: rest =>
    let g := rest.takeWhile (fun c => c.isDigit || c = '.' || c = '-')
    if g.isEmpty then none else some g
  | _ => none

/-- Positional match of `G[01].*Z([-0-9.]+)`: greedy `.*` picks the rightmost
`Z` group after the `G0`/`G1`. -/
def gzAt (t : Line) : Option (List Char) :=
  match t with
  | 'G' :: c :: rest =>
    if c = '0' || c = '1' then lastSearch zTailGroup? rest else none
  | _ => none

/-- The Z value a line contributes to the motion scanner, if any: comments are
cut at the first `;`, the line is stripped, the move pattern searched, and a
`ValueError` from `float` silently skips the line. -/
def zMoveVal? (l : Line) : Option ℚ :=
  let clean := pyStrip (l.takeWhile (fun c => c ≠ ';'))
  match firstSearch gzAt clean with
  | some g => parseFloat? g
  | none => none

/-- `find_z_moves`: ordered `(line, z)` pairs from motion commands. -/
def find_z_moves (content : List Line) : List (ℕ × ℚ) :=
  (List.enumFrom 0 content).filterMap
    (fun p => (zMoveVal? p.2).map (fun z => (p.1, z)))

/-! ### Temperature Extractor (`extract_temperatures`, lines 87-130) -/

/-- Positional match of `HOTEND=(\d+)` on a lowered line. -/
def hotendAt (t : Line) : Option (List Char) :=
  if ("hotend=".data).isPrefixOf t then
    let g := (t.drop 7).takeWhile Char.isDigit
    if g.isEmpty then none else some g
  else none

/-- Positional match of `BED=(\d+).*HOTEND=(\d+)` on a lowered line; the
second greedy `.*` picks the rightmost `HOTEND=` group after the bed digits. -/
def bedHotAt (t : Line) : Option (List Char × List Char) :=
  if ("bed=".data).isPrefixOf t then
    let g := (t.drop 4).takeWhile Char.isDigit
    if g.isEmpty then none
    else
      match lastSearch hotendAt (t.drop (4 + g.length)) with
      | some h => some (g, h)
      | none => none
  else none

/-- Positional match of `PRINT_START.*BED=(\d+).*HOTEND=(\d+)` on a lowered
line; the first greedy `.*` picks the rightmost viable `BED=` occurrence. -/
def printStartAt (t : Line) : Option (ℕ × ℕ) :=
  if ("print_start".data).isPrefixOf t then
    match lastSearch bedHotAt (t.drop 11) with
    | some bh => some (digitsToNat bh.1, digitsToNat bh.2)
    | none => none
  else none

/-- `re.search(r'PRINT_START.*BED=(\d+).*HOTEND=(\d+)', line, re.IGNORECASE)`
with both integer groups. -/
def printStartBoth? (s : Line) : Option (ℕ × ℕ) :=
  firstSearch printStartAt (pyLower s)

/-- Match `\s+S(\d+)` at a position (greedy whitespace run, then `S`, then the
digit group). -/
def afterWsS (t : Line) : Option (List Char) :=
  let ws := t.takeWhile isPySpace
  if ws.isEmpty then none
  else
    match t.drop ws.length with
    | 'S' :: rest =>
      let g := rest.takeWhile Char.isDigit
      if g.isEmpty then none else some g
    | _ => none

/-- Positional match of `M1[49]0\s+S(\d+)` (bed set / set-and-wait). -/
def bedCmdAt (t : Line) : Option (List Char) :=
  match t with
  | 'M' :: '1' :: c :: '0' :: rest =>
    if c = '4' || c = '9' then afterWsS rest else none
  | _ => none

/-- Positional match of `M10[49]\s+S(\d+)` (hotend set / set-and-wait). -/
def hotendCmdAt (t : Line) : Option (List Char) :=
  match t with
  | 'M' :: '1' :: '0' :: c :: rest =>
    if c = '4' || c = '9' then afterWsS rest else none
  | _ => none

/-- `re.search(r'M1[49]0\s+S(\d+)', line)`, as an integer. -/
def bedDirectiveVal? (s : Line) : Option ℕ :=
  (firstSearch bedCmdAt s).map digitsToNat

/-- `re.search(r'M10[49]\s+S(\d+)', line)`, as an integer. -/
def hotendDirectiveVal? (s : Line) : Option ℕ :=
  (firstSearch hotendCmdAt s).map digitsToNat

/-- `if bed_temp is None: ... if bed_match and int(g) > 0: bed_temp = int(g)`. -/
def bedUpdate (b : Option ℕ) (s : Line) : Option ℕ :=
  match b with
  | some v => some v
  | none =>
    match bedDirectiveVal? s with
    | some v => if 0 < v then some v else none
    | none => none

/-- Hotend counterpart of `bedUpdate`. -/
def hotendUpdate (h : Option ℕ) (s : Line) : Option ℕ :=
  match h with
  | some v => some v
  | none =>
    match hotendDirectiveVal? s with
    | some v => if 0 < v then some v else none
    | none => none

/-- The scan loop of `extract_temperatures`: per stripped line, a
`PRINT_START` match takes both values and breaks; otherwise the individual
directives update missing values, and the loop breaks once both are set. -/
def extractScan : List Line → Option ℕ → Option ℕ → Option ℕ × Option ℕ
  | [], b, h => (b, h)
  | l :: ls, b, h =>
    match printStartBoth? (pyStrip l) with
    | some bh => (some bh.1, some bh.2)
    | none =>
      if (bedUpdate b (pyStrip l)).isSome && (hotendUpdate h (pyStrip l)).isSome then
        (bedUpdate b (pyStrip l), hotendUpdate h (pyStrip l))
      else extractScan ls (bedUpdate b (pyStrip l)) (hotendUpdate h (pyStrip l))

/-- `extract_temperatures`: scan the first 500 lines for bed and hotend
temperatures. -/
def extract_temperatures (content : List Line) : Option ℕ × Option ℕ :=
  extractScan (content.take 500) none none

/-- Whether the extractor loop runs through the given lines without breaking,
and the state it reaches then (`none` = the loop broke inside). -/
def extractRuns : List Line → Option ℕ → Option ℕ → Option (Option ℕ × Option ℕ)
  | [], b, h => some (b, h)
  | l :: ls, b, h =>
    match printStartBoth? (pyStrip l) with
    | some _ => none
    | none =>
      if (bedUpdate b (pyStrip l)).isSome && (hotendUpdate h (pyStrip l)).isSome then none
      else extractRuns ls (bedUpdate b (pyStrip l)) (hotendUpdate h (pyStrip l))

/-- First strictly-positive bed-directive value in a list of lines. -/
def firstBed : List Line → Option ℕ
  | [] => none
  | l :: ls =>
    match bedDirectiveVal? (pyStrip l) with
    | some v => if 0 < v then some v else firstBed ls
    | none => firstBed ls

/-- First strictly-positive hotend-directive value in a list of lines. -/
def firstHotend : List Line → Option ℕ
  | [] => none
  | l :: ls =>
    match hotendDirectiveVal? (pyStrip l) with
    | some v => if 0 < v then some v else firstHotend ls
    | none => firstHotend ls

/-! ### Resume Point Resolver (`find_resume_layer` /
`find_resume_by_z_only`, lines 216-289) -/

/-- `content[line].strip().startswith(';')`. -/
def startsWithSemicolon (l : Line) : Bool :=
  match pyStrip l with
  | ';' :: _ => true
  | _ => false

/-- `find_resume_by_z_only`: first motion entry reaching the threshold, then a
look-back over up to 10 prior motion entries for one whose originating line is
a comment, else the immediately preceding motion entry; 0 with no motion data. -/
def find_resume_by_z_only (content : List Line) (target layerH : ℚ) : ℕ :=
  match (List.enumFrom 0 (find_z_moves content)).find?
      (fun p => decide (qSub target layerH ≤ p.2.2)) with
  | some p =>
    match (List.range' (p.1 - 10) (p.1 - (p.1 - 10))).find?
        (fun j => startsWithSemicolon (content.getD ((find_z_moves content).getD j (0, 0)).1 [])) with
    | some j => ((find_z_moves content).getD j (0, 0)).1
    | none => ((find_z_moves content).getD (p.1 - 1) (0, 0)).1
  | none => 0

/-- `find_resume_layer`: height-bearing markers first, then the legacy
marker-plus-motion path, then motion only.  `none` models the uncaught
`ValueError` of the marker scanner. -/
def find_resume_layer (content : List Line) (target layerH : ℚ) : Option ℕ :=
  match find_layer_changes_with_z content with
  | none => none
  | some [] =>
    match find_layer_changes content with
    | [] => some (find_resume_by_z_only content target layerH)
    | l0 :: ls =>
      match (l0 :: ls).find?
          (fun layer_line =>
            (find_z_moves content).any
              (fun zm => decide (layer_line < zm.1) && decide (qSub target layerH ≤ zm.2))) with
      | some ll => some ll
      | none => some ((l0 :: ls).getLastD 0)
  | some (m0 :: ms) =>
    match (m0 :: ms).find? (fun m => decide (qSub target layerH ≤ m.2)) with
    | some m => some m.1
    | none => some (((m0 :: ms).getLastD (0, 0)).1)

/-- Modelled from the spec (for comparison with the legacy path of
`find_resume_layer`): pair each height-less marker with the first motion value
strictly after it, select the first marker whose paired value reaches the
threshold, else the last marker. -/
def legacyResumePerSpec (layerIdx : List ℕ) (zMoves : List (ℕ × ℚ)) (th : ℚ) : Option ℕ :=
  match layerIdx.find?
      (fun ll =>
        match zMoves.find? (fun zm => decide (ll < zm.1)) with
        | some zm => decide (th ≤ zm.2)
        | none => false) with
  | some ll => some ll
  | none => layerIdx.getLast?

/-- Smallest element of a list of naturals, if any. -/
def minNat? : List ℕ → Option ℕ
  | [] => none
  | a :: rest =>
    match minNat? rest with
    | none => some a
    | some b => some (min a b)

/-- The line index of the first marker in line order whose height reaches the
threshold: the minimal line index among qualifying markers (the reading of the
claim, independent of the scanner's output order). -/
def firstQualifyingLine (ms : List (ℕ × ℚ)) (th : ℚ) : Option ℕ :=
  minNat? ((ms.filter (fun m => decide (th ≤ m.2))).map Prod.fst)

/-! ### Start-Section Stripper (`remove_homing_and_start`, lines 291-336) -/

/-- The fixed removal patterns, each `re.match`-ed (anchored) case-insensitively
against the stripped line, plus the droppable-comment condition
(`startswith(';') and not startswith(';TYPE')`, case sensitive). -/
def isRemovableLine (s : Line) : Bool :=
  let low := pyLower s
  ("g28".data).isPrefixOf low ||
  ("g28 x y".data).isPrefixOf low ||
  ("g28 z".data).isPrefixOf low ||
  ("m107".data).isPrefixOf low ||
  ("g92 e0".data).isPrefixOf low ||
  ("m82".data).isPrefixOf low ||
  ("g90".data).isPrefixOf low ||
  ("m140".data).isPrefixOf low ||
  ("m190".data).isPrefixOf low ||
  ("m104".data).isPrefixOf low ||
  ("m109".data).isPrefixOf low ||
  (";print_start".data).isPrefixOf low ||
  ((";".data).isPrefixOf s && !(";TYPE".data).isPrefixOf s)

/-- A line the stripper drops while still in its removing state: a removable
line or a line that is empty once stripped. -/
def lineDropped (l : Line) : Bool :=
  isRemovableLine (pyStrip l) || (pyStrip l).isEmpty

/-- `remove_homing_and_start`: drop the leading run of setup lines; the first
kept line switches permanently to pass-through. -/
def remove_homing_and_start : List Line → List Line
  | [] => []
  | l :: ls =>
    if lineDropped l then remove_homing_and_start ls else l :: ls

/-! ### Header Synthesizer (`create_resume_header`, lines 338-430) -/

/-- Python truthiness of an optional temperature (`if self.bed_temp:`):
`None` and `0` are falsy. -/
def truthy (t : Option ℚ) : Bool :=
  match t with
  | none => false
  | some v => decide (v ≠ 0)

/-- Digits of a natural number. -/
def natStr (n : ℕ) : List Char := (Nat.repr n).data

/-- Digits of an integer. -/
def intStr (i : ℤ) : List Char :=
  if i < 0 then '-' :: natStr i.natAbs else natStr i.natAbs

/-- Zero-pad on the left to `k` characters. -/
def padZeroes (k : ℕ) (s : List Char) : List Char :=
  List.replicate (k - s.length) '0' ++ s

/-- Fixed-point rendering of a nonnegative rational with `prec` decimals,
round half to even (the rounding Python's `format` applies). -/
def fmtFixedNN (prec : ℕ) (q : ℚ) : List Char :=
  let scaled := qMul q (qOfNat (10 ^ prec))
  let f : ℤ := Rat.floor scaled
  let r := qSub scaled (mkRat f 1)
  let n : ℤ :=
    if mkRat 1 2 < r then f + 1
    else if r < mkRat 1 2 then f
    else if f % 2 = 0 then f else f + 1
  let m : ℕ := n.toNat
  if prec = 0 then natStr (m / 10 ^ prec)
  else natStr (m / 10 ^ prec) ++ '.' :: padZeroes prec (natStr (m % 10 ^ prec))

/-- `'{:.'+prec+'f}'.format(q)` on the exact rational (Python formats the
nearest binary double; on the values this tool produces the two agree, and no
claim depends on the rendered digits). -/
def fmtFixed (prec : ℕ) (q : ℚ) : List Char :=
  if q < 0 then '-' :: fmtFixedNN prec (qNeg q) else fmtFixedNN prec q

/-- Least number of decimals rendering the denominator exactly, when one of at
most 30 exists. -/
def decExp (d : ℕ) : Option ℕ :=
  (List.range 31).find? (fun k => 10 ^ k % d = 0)

/-- `'{}'.format(v)` for a detected (integer) or supplied temperature: integers
render without a decimal point, terminating fractions exactly (stand-in for
Python's shortest float repr; no claim depends on the digits). -/
def fmtTemp (q : ℚ) : List Char :=
  if q.den = 1 then intStr q.num
  else
    match decExp q.den with
    | some k => fmtFixed k q
    | none => fmtFixed 17 q

/-- `'M140 S{} ; Set bed temperature\n'.format(v)` -/
def bedSetLine (v : ℚ) : Line :=
  ("M140 S".data) ++ fmtTemp v ++ (" ; Set bed temperature\n".data)

/-- `'M104 S{} ; Set hotend temperature\n'.format(v)` -/
def hotendSetLine (v : ℚ) : Line :=
  ("M104 S".data) ++ fmtTemp v ++ (" ; Set hotend temperature\n".data)

/-- `'M190 S{} ; Wait for bed temperature\n'.format(v)` -/
def bedWaitLine (v : ℚ) : Line :=
  ("M190 S".data) ++ fmtTemp v ++ (" ; Wait for bed temperature\n".data)

/-- `'M109 S{} ; Wait for hotend temperature\n'.format(v)` -/
def hotendWaitLine (v : ℚ) : Line :=
  ("M109 S".data) ++ fmtTemp v ++ (" ; Wait for hotend temperature\n".data)

/-- Warning comment of the bed-only branch. -/
def hotendManualWarnLine : Line :=
  "; Heat bed (hotend temp not detected - set manually before starting)\n".data

/-- Warning comment of the hotend-only branch. -/
def bedManualWarnLine : Line :=
  "; Heat hotend (bed temp not detected - set manually before starting)\n".data

/-- First warning line of the no-temperatures branch. -/
def noTempWarnLine1 : Line :=
  "; WARNING: Temperatures not detected!\n".data

/-- Second warning line of the no-temperatures branch. -/
def noTempWarnLine2 : Line :=
  "; Heat bed and nozzle manually before starting this file.\n".data

/-- `create_resume_header`: the synthesized leading command block. -/
def create_resume_header (rh lh : ℚ) (bed hot : Option ℚ) : List Line :=
  [("; === PRINT RESUME TOOL ===\n".data),
   ("; Resume height: ".data) ++ fmtFixed 2 rh ++ ("mm\n".data),
   ("; Layer height: ".data) ++ fmtFixed 2 lh ++ ("mm\n".data)]
  ++ (if truthy bed then
        [("; Bed temperature: ".data) ++ fmtTemp (bed.getD 0) ++ ("C\n".data)]
      else [])
  ++ (if truthy hot then
        [("; Hotend temperature: ".data) ++ fmtTemp (hot.getD 0) ++ ("C\n".data)]
      else [])
  ++ [(";\n".data),
      ("; WORKFLOW:\n".data),
      ("; 1. File will heat bed and nozzle automatically\n".data),
      ("; 2. File will home X and Y automatically\n".data),
      ("; 3. Printer will PAUSE - move nozzle to Z=".data) ++ fmtFixed 2 rh ++ ("mm manually\n".data),
      ("; 4. Click RESUME to continue printing\n".data),
      (";\n".data),
      ("\n".data),
      ("; === START RESUME SEQUENCE ===\n".data),
      ("\n".data),
      ("; Set absolute positioning\n".data),
      ("G90\n".data),
      ("\n".data)]
  ++ (if truthy bed && truthy hot then
        [("; Heat bed and nozzle\n".data),
         bedSetLine (bed.getD 0),
         hotendSetLine (hot.getD 0),
         bedWaitLine (bed.getD 0),
         hotendWaitLine (hot.getD 0),
         ("\n".data)]
      else if truthy bed then
        [hotendManualWarnLine,
         bedSetLine (bed.getD 0),
         bedWaitLine (bed.getD 0),
         ("\n".data)]
      else if truthy hot then
        [bedManualWarnLine,
         hotendSetLine (hot.getD 0),
         hotendWaitLine (hot.getD 0),
         ("\n".data)]
      else
        [noTempWarnLine1,
         noTempWarnLine2,
         ("\n".data)])
  ++ [("; Home X and Y axes\n".data),
      ("G28 X Y\n".data),
      ("\n".data),
      ("; === PAUSE FOR MANUAL NOZZLE POSITIONING ===\n".data),
      ("; Move the nozzle to Z=".data) ++ fmtFixed 2 rh ++ ("mm above the print surface\n".data),
      ("; Use the LCD or web interface to jog Z to the correct height\n".data),
      ("; The nozzle should be approximately one layer height above the last printed layer\n".data),
      ("PAUSE MSG=\"Move nozzle to Z=".data) ++ fmtFixed 2 rh ++ ("mm, then click RESUME\"\n".data),
      ("\n".data),
      ("; === AFTER RESUME ===\n".data),
      ("; Set current Z position to resume height\n".data),
      ("G92 Z".data) ++ fmtFixed 3 rh ++ ("\n".data),
      ("\n".data),
      ("; Reset extruder position\n".data),
      ("G92 E0\n".data),
      ("\n".data),
      ("; Set modes for printing\n".data),
      ("M83 ; Extruder relative mode\n".data),
      ("G90 ; Absolute positioning\n".data),
      ("\n".data),
      ("; === BEGIN RESUMED PRINT ===\n".data),
      ("\n".data)]

/-- A header line that is a heating command or one of the manual-heating
warning comments (the lines claim C8 ranges over). -/
def isHeatEmission (l : Line) : Bool :=
  ("M140".data).isPrefixOf l ||
  ("M104".data).isPrefixOf l ||
  ("M190".data).isPrefixOf l ||
  ("M109".data).isPrefixOf l ||
  l == hotendManualWarnLine ||
  l == bedManualWarnLine ||
  l == noTempWarnLine1 ||
  l == noTempWarnLine2

/-! ### Document assembly (`process_gcode`, lines 432-477) -/

/-- Temperatures used by the run: the caller-supplied overrides, falling back
to the detected ones. -/
def resolvedTemps (content : List Line) (bedO hotO : Option ℚ) : Option ℚ × Option ℚ :=
  let det := extract_temperatures content
  (match bedO with
   | some b => some b
   | none => det.1.map qOfNat,
   match hotO with
   | some h => some h
   | none => det.2.map qOfNat)

/-- `process_gcode` without the I/O: resolve temperatures, find the resume
line, strip the tail, prepend the synthesized header.  `none` models the
uncaught exception of the resolver. -/
def process_gcode (content : List Line) (rh lh : ℚ) (bedO hotO : Option ℚ) :
    Option (List Line) :=
  match find_resume_layer content rh lh with
  | none => none
  | some r =>
    some (create_resume_header rh lh (resolvedTemps content bedO hotO).1
            (resolvedTemps content bedO hotO).2
          ++ remove_homing_and_start (content.drop r))

/-- `orFirst b f`: `b` if already set, else `f` (the first-positive-wins
resolution state of the extractor, as a value). -/
def orFirst (b : Option ℕ) (f : Option ℕ) : Option ℕ :=
  match b with
  | some v => some v
  | none => f

/-! ### Concrete documents used by counterexamples and witnesses -/

/-- Mixed-dialect document: a PrusaSlicer `; layer` marker followed by a
back-dated `;Z:` marker (claim C1). -/
def c1demo : List Line :=
  [";LAYER_CHANGE".data, "; layer 1, z = 0.3".data, ";Z:0.6".data]

/-- Single-dialect sorted document (claim C1 witness). -/
def c1wdemo : List Line := [";Z:0.2".data, ";Z:0.4".data]

/-- A document whose `;Z:` height group `1.2.3` is not a parseable float
(claim C2). -/
def c2demo : List Line := [";Z:1.2.3".data]

/-- One motion line (claim C2 witness). -/
def c2wdemo : List Line := ["G1 Z0.5".data]

/-- Legacy-path document: two height-less markers, a low motion value after
the first and a high one after the second (claim C3). -/
def c3demo : List Line :=
  [";LAYER_CHANGE".data, "G1 Z0.1".data, ";LAYER_CHANGE".data, "G1 Z5.0".data]

/-- Scenario B document of the spec: no markers, motion line with `z=5.0` at
index 12, comment-only line at index 9, within the 10-entry look-back window
(claim C4). -/
def c4demo : List Line :=
  ["G1 Z0.1".data, "G1 Z0.1".data, "G1 Z0.1".data, "G1 Z0.1".data, "G1 Z0.1".data,
   "G1 Z0.1".data, "G1 Z0.1".data, "G1 Z0.1".data, "G1 Z0.1".data, "; boundary".data,
   "G1 Z0.2".data, "G1 Z0.3".data, "G1 Z5.0".data]

/-- Scenario D document: a zero bed directive, then a `PRINT_START` line
carrying both values, then a later bed directive (claim C6). -/
def c6demo : List Line :=
  ["M140 S0".data, "; hello".data, "PRINT_START BED=85 HOTEND=230".data, "M140 S60".data]

/-- Mixed-dialect document on which the marker scanner output decreases
(claim C7). -/
def c7demo : List Line :=
  [";LAYER_CHANGE".data, "; layer 1, z = 0.3".data, ";Z:0.6".data]

/-- Pure `;Z:` dialect document with back-dating (claim C7 witness). -/
def c7wdemo : List Line :=
  [";LAYER_CHANGE".data, ";Z:0.2".data, "G1 Z0.2".data, ";Z:0.4".data]

/-- One motion line (claim C9 witness). -/
def c9demo : List Line := ["G1 Z1.0".data]

/-! ## Supporting lemmas -/

lemma enumFrom_mem_bounds {α : Type} (n : ℕ) (l : List α) (p : ℕ × α)
    (hp : p ∈ List.enumFrom n l) : n ≤ p.1 ∧ p.1 < n + l.length ∧ p.2 ∈ l := by
  induction l generalizing n with
  | nil => simp [List.enumFrom] at hp
  | cons a as ih =>
    rw [show List.enumFrom n (a :: as) = (n, a) :: List.enumFrom (n + 1) as from rfl] at hp
    rcases List.mem_cons.mp hp with h | h
    · subst h
      refine ⟨le_refl n, by simp, by simp⟩
    · obtain ⟨h1, h2, h3⟩ := ih (n + 1) h
      exact ⟨by omega, by simp; omega, List.mem_cons_of_mem a h3⟩

lemma getD_mem {α : Type} (l : List α) (j : ℕ) (d : α) (h : j < l.length) :
    l.getD j d ∈ l := by
  induction l generalizing j with
  | nil => simp at h
  | cons a as ih =>
    cases j with
    | zero => simp
    | succ j =>
      simp only [List.getD_cons_succ]
      exact List.mem_cons_of_mem a (ih j (by simpa using h))

lemma getLastD_cons_mem {α : Type} (x : α) (xs : List α) (d : α) :
    (x :: xs).getLastD d ∈ x :: xs := by
  induction xs generalizing x with
  | nil => simp
  | cons y ys ih =>
    rw [List.getLastD_cons]
    exact List.mem_cons_of_mem x (ih y)

lemma find?_range'_min (p : ℕ → Bool) (n : ℕ) :
    ∀ (s a : ℕ), (List.range' s n).find? p = some a →
      ∀ b ∈ List.range' s n, p b → a ≤ b := by
  induction n with
  | zero => intro s a h; simp [List.range'] at h
  | succ n ih =>
    intro s a h b hb hpb
    rw [List.range'_succ] at h hb
    cases hps : p s with
    | true =>
      rw [List.find?_cons_of_pos _ hps] at h
      injection h with h
      subst h
      rcases List.mem_cons.mp hb with rfl | hb'
      · exact le_refl b
      · exact le_of_lt (List.mem_range'_1.mp hb').1
    | false =>
      rw [List.find?_cons_of_neg _ (by simp [hps])] at h
      rcases List.mem_cons.mp hb with rfl | hb'
      · exact absurd hpb (by simp [hps])
      · exact ih (s + 1) a h b hb' hpb

lemma find?_split {α : Type} (p : α → Bool) :
    ∀ (l : List α) (a : α), l.find? p = some a →
      ∃ l1 l2, l = l1 ++ a :: l2 ∧ ∀ x ∈ l1, p x = false := by
  intro l
  induction l with
  | nil => intro a h; simp at h
  | cons x xs ih =>
    intro a h
    cases hpx : p x with
    | true =>
      rw [List.find?_cons_of_pos _ hpx] at h
      injection h with h
      subst h
      exact ⟨[], xs, by simp, by simp⟩
    | false =>
      rw [List.find?_cons_of_neg _ (by simp [hpx])] at h
      obtain ⟨l1, l2, he, hf⟩ := ih a h
      refine ⟨x :: l1, l2, by simp [he], ?_⟩
      intro y hy
      rcases List.mem_cons.mp hy with rfl | hy'
      · exact hpx
      · exact hf y hy'

lemma minNat?_mem : ∀ (l : List ℕ) (a : ℕ), minNat? l = some a → a ∈ l := by
  intro l
  induction l with
  | nil => intro a h; simp [minNat?] at h
  | cons x xs ih =>
    intro a h
    unfold minNat? at h
    cases hm : minNat? xs with
    | none =>
      rw [hm] at h
      injection h with h
      subst h
      exact List.mem_cons_self x xs
    | some b =>
      rw [hm] at h
      injection h with h
      subst h
      rcases Nat.le_total x b with hxb | hbx
      · rw [Nat.min_eq_left hxb]; exact List.mem_cons_self x xs
      · rw [Nat.min_eq_right hbx]; exact List.mem_cons_of_mem x (ih b hm)

lemma minNat?_cons_le (x : ℕ) (xs : List ℕ) (h : ∀ b ∈ xs, x ≤ b) :
    minNat? (x :: xs) = some x := by
  unfold minNat?
  cases hm : minNat? xs with
  | none => rfl
  | some b =>
    have hb : b ∈ xs := minNat?_mem xs b hm
    show some (min x b) = some x
    rw [Nat.min_eq_left (h b hb)]

lemma backdate_le_self (content : List Line) (i : ℕ) : backdate content i ≤ i := by
  unfold backdate
  split
  · next j heq =>
    have hj := List.mem_of_find?_eq_some heq
    rw [List.mem_range'_1] at hj
    omega
  · exact le_refl i

lemma backdate_mono (content : List Line) {i i' : ℕ} (h : i ≤ i') :
    backdate content i ≤ backdate content i' := by
  cases hf' : (List.range' (i' - 5) (i' - (i' - 5))).find?
      (fun j => isLayerChangeLine (content.getD j [])) with
  | none =>
    have hbd : backdate content i' = i' := by unfold backdate; rw [hf']
    rw [hbd]
    exact le_trans (backdate_le_self content i) h
  | some j' =>
    have hbd : backdate content i' = j' := by unfold backdate; rw [hf']
    rw [hbd]
    have hjmem := List.mem_of_find?_eq_some hf'
    have hpj' := List.find?_some hf'
    rw [List.mem_range'_1] at hjmem
    by_cases hij : i ≤ j'
    · exact le_trans (backdate_le_self content i) hij
    · push_neg at hij
      have hwin : j' ∈ List.range' (i - 5) (i - (i - 5)) := by
        rw [List.mem_range'_1]; omega
      cases hf : (List.range' (i - 5) (i - (i - 5))).find?
          (fun j => isLayerChangeLine (content.getD j [])) with
      | none =>
        rw [List.find?_eq_none] at hf
        exact absurd hpj' (hf j' hwin)
      | some j0 =>
        have hbd0 : backdate content i = j0 := by unfold backdate; rw [hf]
        rw [hbd0]
        exact find?_range'_min _ _ _ _ hf j' hwin hpj'

lemma markerAt_fst_le (content : List Line) (i : ℕ) (line : Line) (m : ℕ × ℚ)
    (h : markerAt content i line = some (some m)) : m.1 ≤ i := by
  unfold markerAt at h
  split at h
  · split at h
    · injection h with h
      injection h with h
      subst h
      exact backdate_le_self content i
    · exact absurd h (by simp)
  · split at h
    · split at h
      · injection h with h
        injection h with h
        subst h
        exact le_refl i
      · exact absurd h (by simp)
    · injection h with h
      exact absurd h (by simp)

lemma markerAt_backdate (content : List Line) (i : ℕ) (line : Line) (m : ℕ × ℚ)
    (hz : layerZGroup? (pyStrip line) = none)
    (h : markerAt content i line = some (some m)) : m.1 = backdate content i := by
  unfold markerAt at h
  split at h
  · split at h
    · injection h with h
      injection h with h
      subst h
      rfl
    · exact absurd h (by simp)
  · rw [hz] at h
    injection h with h
    exact absurd h (by simp)

lemma markersFrom_mem_le (content : List Line) :
    ∀ (l : List (ℕ × Line)) (ms : List (ℕ × ℚ)), markersFrom content l = some ms →
      ∀ m ∈ ms, ∃ p ∈ l, m.1 ≤ p.1 := by
  intro l
  induction l with
  | nil =>
    intro ms h m hm
    unfold markersFrom at h
    injection h with h
    subst h
    simp at hm
  | cons q rest ih =>
    intro ms h m hm
    unfold markersFrom at h
    cases hma : markerAt content q.1 q.2 with
    | none => rw [hma] at h; exact absurd h (by simp)
    | some o =>
      rw [hma] at h
      cases o with
      | none =>
        obtain ⟨p, hp, hle⟩ := ih ms h m hm
        exact ⟨p, List.mem_cons_of_mem q hp, hle⟩
      | some m0 =>
        cases hrec : markersFrom content rest with
        | none => rw [hrec] at h; exact absurd h (by simp)
        | some ms' =>
          rw [hrec] at h
          injection h with h
          subst h
          rcases List.mem_cons.mp hm with rfl | hm'
          · exact ⟨q, List.mem_cons_self q rest, markerAt_fst_le content q.1 q.2 m hma⟩
          · obtain ⟨p, hp, hle⟩ := ih ms' hrec m hm'
            exact ⟨p, List.mem_cons_of_mem q hp, hle⟩

lemma markersFrom_sorted (content : List Line) :
    ∀ (rest : List Line) (i0 : ℕ) (ms : List (ℕ × ℚ)),
      (∀ p ∈ List.enumFrom i0 rest, layerZGroup? (pyStrip p.2) = none) →
      markersFrom content (List.enumFrom i0 rest) = some ms →
      (∀ m ∈ ms, backdate content i0 ≤ m.1) ∧ ms.Pairwise (fun a b => a.1 ≤ b.1) := by
  intro rest
  induction rest with
  | nil =>
    intro i0 ms _ h
    unfold markersFrom at h
    injection h with h
    subst h
    simp
  | cons l rest ih =>
    intro i0 ms hd h
    rw [show List.enumFrom i0 (l :: rest) = (i0, l) :: List.enumFrom (i0 + 1) rest from rfl]
      at h hd
    unfold markersFrom at h
    cases hma : markerAt content i0 l with
    | none => rw [hma] at h; exact absurd h (by simp)
    | some o =>
      rw [hma] at h
      cases o with
      | none =>
        have hrec := ih (i0 + 1) ms (fun p hp => hd p (List.mem_cons_of_mem _ hp)) h
        refine ⟨fun m hm => le_trans (backdate_mono content (by omega)) (hrec.1 m hm), hrec.2⟩
      | some m0 =>
        cases hrec : markersFrom content (List.enumFrom (i0 + 1) rest) with
        | none => rw [hrec] at h; exact absurd h (by simp)
        | some ms' =>
          rw [hrec] at h
          injection h with h
          subst h
          have hz : layerZGroup? (pyStrip l) = none := hd (i0, l) (List.mem_cons_self _ _)
          have hm0 : m0.1 = backdate content i0 := markerAt_backdate content i0 l m0 hz hma
          have hih := ih (i0 + 1) ms' (fun p hp => hd p (List.mem_cons_of_mem _ hp)) hrec
          constructor
          · intro m hm
            rcases List.mem_cons.mp hm with rfl | hm'
            · rw [hm0]
            · exact le_trans (backdate_mono content (by omega)) (hih.1 m hm')
          · refine List.pairwise_cons.mpr ⟨?_, hih.2⟩
            intro b hb
            calc m0.1 = backdate content i0 := hm0
              _ ≤ backdate content (i0 + 1) := backdate_mono content (by omega)
              _ ≤ b.1 := hih.1 b hb

lemma flcz_mem_lt (content : List Line) (ms : List (ℕ × ℚ))
    (h : find_layer_changes_with_z content = some ms) :
    ∀ m ∈ ms, m.1 < content.length := by
  intro m hm
  obtain ⟨p, hp, hle⟩ := markersFrom_mem_le content _ ms h m hm
  have hb := enumFrom_mem_bounds 0 content p hp
  omega

lemma zmoves_from_sorted (l : List Line) :
    ∀ n : ℕ,
      (∀ m ∈ (List.enumFrom n l).filterMap
          (fun p => (zMoveVal? p.2).map (fun z => (p.1, z))), n ≤ m.1)
      ∧ ((List.enumFrom n l).filterMap
          (fun p => (zMoveVal? p.2).map (fun z => (p.1, z)))).Pairwise
            (fun a b => a.1 < b.1) := by
  induction l with
  | nil => intro n; simp [List.enumFrom]
  | cons x xs ih =>
    intro n
    rw [show List.enumFrom n (x :: xs) = (n, x) :: List.enumFrom (n + 1) xs from rfl]
    rw [List.filterMap_cons]
    cases hz : zMoveVal? x with
    | none =>
      simp only [hz, Option.map_none']
      exact ⟨fun m hm => le_trans (by omega) ((ih (n + 1)).1 m hm), (ih (n + 1)).2⟩
    | some z =>
      simp only [hz, Option.map_some']
      constructor
      · intro m hm
        rcases List.mem_cons.mp hm with rfl | hm'
        · exact le_refl n
        · exact le_trans (by omega) ((ih (n + 1)).1 m hm')
      · refine List.pairwise_cons.mpr ⟨?_, (ih (n + 1)).2⟩
        intro b hb
        have := (ih (n + 1)).1 b hb
        omega

lemma find_z_moves_sorted (content : List Line) :
    (find_z_moves content).Pairwise (fun a b => a.1 < b.1) :=
  (zmoves_from_sorted content 0).2

lemma zmoves_mem_lt (content : List Line) :
    ∀ m ∈ find_z_moves content, m.1 < content.length := by
  intro m hm
  unfold find_z_moves at hm
  obtain ⟨p, hp, hf⟩ := List.mem_filterMap.mp hm
  have hb := enumFrom_mem_bounds 0 content p hp
  cases hz : zMoveVal? p.2 with
  | none => rw [hz] at hf; exact absurd hf (by simp)
  | some z =>
    rw [hz, Option.map_some'] at hf
    injection hf with hf
    rw [← hf]
    simpa using hb.2.1

lemma find_layer_changes_lt (content : List Line) :
    ∀ i ∈ find_layer_changes content, i < content.length := by
  intro i hi
  unfold find_layer_changes at hi
  obtain ⟨p, hp, hfst⟩ := List.mem_map.mp hi
  have hp' := List.mem_filter.mp hp
  have hb := enumFrom_mem_bounds 0 content p hp'.1
  omega

lemma find_resume_by_z_only_lt (content : List Line) (t lh : ℚ)
    (hne : content ≠ []) :
    find_resume_by_z_only content t lh < content.length := by
  unfold find_resume_by_z_only
  split
  · next p heq =>
    have hp := List.mem_of_find?_eq_some heq
    have hbp := enumFrom_mem_bounds 0 (find_z_moves content) p hp
    split
    · next j heqj =>
      have hj := List.mem_of_find?_eq_some heqj
      rw [List.mem_range'_1] at hj
      have hjlen : j < (find_z_moves content).length := by omega
      exact zmoves_mem_lt content _ (getD_mem _ j (0, 0) hjlen)
    · next _ =>
      have hlen : p.1 - 1 < (find_z_moves content).length := by omega
      exact zmoves_mem_lt content _ (getD_mem _ _ (0, 0) hlen)
  · next _ =>
    exact List.length_pos.mpr hne

lemma find_resume_layer_lt (content : List Line) (t lh : ℚ) (r : ℕ)
    (hne : content ≠ []) (h : find_resume_layer content t lh = some r) :
    r < content.length := by
  unfold find_resume_layer at h
  split at h
  · exact absurd h (by simp)
  · next heqz =>
    split at h
    · next heql =>
      injection h with h
      subst h
      exact find_resume_by_z_only_lt content t lh hne
    · next l0 ls heql =>
      split at h
      · next ll heqf =>
        injection h with h
        subst h
        have hm := List.mem_of_find?_eq_some heqf
        rw [← heql] at hm
        exact find_layer_changes_lt content _ hm
      · next heqf =>
        injection h with h
        subst h
        have hm : (l0 :: ls).getLastD 0 ∈ find_layer_changes content := by
          rw [heql]
          exact getLastD_cons_mem l0 ls 0
        exact find_layer_changes_lt content _ hm
  · next m0 ms heqz =>
    split at h
    · next m heqf =>
      injection h with h
      subst h
      have hm := List.mem_of_find?_eq_some heqf
      exact flcz_mem_lt content (m0 :: ms) heqz m hm
    · next heqf =>
      injection h with h
      subst h
      have hm : (m0 :: ms).getLastD (0, 0) ∈ m0 :: ms := getLastD_cons_mem m0 ms (0, 0)
      exact flcz_mem_lt content (m0 :: ms) heqz _ hm

lemma find_resume_layer_le (content : List Line) (t lh : ℚ) (r : ℕ)
    (h : find_resume_layer content t lh = some r) : r ≤ content.length := by
  cases content with
  | nil =>
    have h0 : find_resume_layer [] t lh = some 0 := rfl
    rw [h0] at h
    injection h with h
    omega
  | cons x xs =>
    exact le_of_lt (find_resume_layer_lt (x :: xs) t lh r (by simp) h)

lemma remove_homing_suffix (ls : List Line) :
    ∃ j, j ≤ ls.length ∧ remove_homing_and_start ls = ls.drop j := by
  induction ls with
  | nil => exact ⟨0, by simp [remove_homing_and_start]⟩
  | cons l ls ih =>
    cases hd : lineDropped l with
    | true =>
      obtain ⟨j, hj, hdrop⟩ := ih
      refine ⟨j + 1, by simp; omega, ?_⟩
      show (if lineDropped l = true then remove_homing_and_start ls else l :: ls)
        = List.drop (j + 1) (l :: ls)
      rw [hd, if_pos rfl]
      simpa using hdrop
    | false =>
      refine ⟨0, by simp, ?_⟩
      show (if lineDropped l = true then remove_homing_and_start ls else l :: ls)
        = List.drop 0 (l :: ls)
      rw [hd]
      simp

lemma firstBed_cons (l : Line) (ls : List Line) :
    firstBed (l :: ls) = (match bedDirectiveVal? (pyStrip l) with
      | some v => if 0 < v then some v else firstBed ls
      | none => firstBed ls) := rfl

lemma firstHotend_cons (l : Line) (ls : List Line) :
    firstHotend (l :: ls) = (match hotendDirectiveVal? (pyStrip l) with
      | some v => if 0 < v then some v else firstHotend ls
      | none => firstHotend ls) := rfl

lemma bedUpdate_none (s : Line) :
    bedUpdate none s = (match bedDirectiveVal? s with
      | some v => if 0 < v then some v else none
      | none => none) := rfl

lemma hotendUpdate_none (s : Line) :
    hotendUpdate none s = (match hotendDirectiveVal? s with
      | some v => if 0 < v then some v else none
      | none => none) := rfl

lemma extractRuns_cons (l : Line) (ls : List Line) (b h : Option ℕ) :
    extractRuns (l :: ls) b h = (match printStartBoth? (pyStrip l) with
      | some _ => none
      | none =>
        if (bedUpdate b (pyStrip l)).isSome && (hotendUpdate h (pyStrip l)).isSome then none
        else extractRuns ls (bedUpdate b (pyStrip l)) (hotendUpdate h (pyStrip l))) := rfl

lemma extractScan_cons (l : Line) (ls : List Line) (b h : Option ℕ) :
    extractScan (l :: ls) b h = (match printStartBoth? (pyStrip l) with
      | some bh => (some bh.1, some bh.2)
      | none =>
        if (bedUpdate b (pyStrip l)).isSome && (hotendUpdate h (pyStrip l)).isSome then
          (bedUpdate b (pyStrip l), hotendUpdate h (pyStrip l))
        else extractScan ls (bedUpdate b (pyStrip l)) (hotendUpdate h (pyStrip l))) := rfl

lemma extractRuns_append (pre : List Line) :
    ∀ (xs : List Line) (b h s1 s2 : Option ℕ),
      extractRuns pre b h = some (s1, s2) →
      extractScan (pre ++ xs) b h = extractScan xs s1 s2 := by
  induction pre with
  | nil =>
    intro xs b h s1 s2 hr
    unfold extractRuns at hr
    injection hr with hr
    rw [Prod.mk.injEq] at hr
    obtain ⟨rfl, rfl⟩ := hr
    rfl
  | cons l ls ih =>
    intro xs b h s1 s2 hr
    rw [extractRuns_cons] at hr
    rw [List.cons_append, extractScan_cons]
    cases hps : printStartBoth? (pyStrip l) with
    | some bh =>
      rw [hps] at hr
      exact Option.noConfusion hr
    | none =>
      rw [hps] at hr
      cases hc : (bedUpdate b (pyStrip l)).isSome && (hotendUpdate h (pyStrip l)).isSome with
      | true =>
        rw [hc, if_pos rfl] at hr
        exact Option.noConfusion hr
      | false =>
        rw [hc, if_neg (by simp)] at hr
        rw [if_neg (by simp)]
        exact ih xs _ _ s1 s2 hr

lemma extractScan_no_ps :
    ∀ (ls : List Line) (b h : Option ℕ),
      (∀ l ∈ ls, printStartBoth? (pyStrip l) = none) →
      extractScan ls b h = (orFirst b (firstBed ls), orFirst h (firstHotend ls)) := by
  intro ls
  induction ls with
  | nil =>
    intro b h _
    unfold extractScan orFirst
    cases b <;> cases h <;> simp [firstBed, firstHotend]
  | cons l ls ih =>
    intro b h hps
    have hl := hps l (List.mem_cons_self l ls)
    have hb' : orFirst (bedUpdate b (pyStrip l)) (firstBed ls)
        = orFirst b (firstBed (l :: ls)) := by
      cases b with
      | some v => rfl
      | none =>
        rw [bedUpdate_none, firstBed_cons]
        cases hbd : bedDirectiveVal? (pyStrip l) with
        | none => rfl
        | some v =>
          show orFirst (if 0 < v then some v else none) (firstBed ls)
              = orFirst none (if 0 < v then some v else firstBed ls)
          by_cases hv : 0 < v
          · simp only [if_pos hv]; rfl
          · simp only [if_neg hv]
    have hh' : orFirst (hotendUpdate h (pyStrip l)) (firstHotend ls)
        = orFirst h (firstHotend (l :: ls)) := by
      cases h with
      | some v => rfl
      | none =>
        rw [hotendUpdate_none, firstHotend_cons]
        cases hbd : hotendDirectiveVal? (pyStrip l) with
        | none => rfl
        | some v =>
          show orFirst (if 0 < v then some v else none) (firstHotend ls)
              = orFirst none (if 0 < v then some v else firstHotend ls)
          by_cases hv : 0 < v
          · simp only [if_pos hv]; rfl
          · simp only [if_neg hv]
    rw [extractScan_cons, hl]
    cases hc : (bedUpdate b (pyStrip l)).isSome && (hotendUpdate h (pyStrip l)).isSome with
    | true =>
      rw [if_pos rfl]
      obtain ⟨hbs, hhs⟩ := Bool.and_eq_true_iff.mp hc
      obtain ⟨vb, hvb⟩ := Option.isSome_iff_exists.mp hbs
      obtain ⟨vh, hvh⟩ := Option.isSome_iff_exists.mp hhs
      rw [← hb', ← hh', hvb, hvh]
      rfl
    | false =>
      rw [if_neg (by simp)]
      rw [ih (bedUpdate b (pyStrip l)) (hotendUpdate h (pyStrip l))
        (fun x hx => hps x (List.mem_cons_of_mem l hx))]
      rw [hb', hh']

/-! ## Claim theorems -/

/-- C2, counterexample: the claim promises one in-bounds resume index for
every non-empty document, but on the non-empty document `[";Z:1.2.3"]` the
marker scanner's `float("1.2.3")` raises an uncaught `ValueError` (modelled as
`none`): the resolver returns nothing at all. -/
theorem c2_counterexample :
    c2demo ≠ [] ∧ find_resume_layer c2demo 1 (mkRat 1 5) = none := by
  refine ⟨by decide, by decide⟩

/-- C2, amended: whenever the resolver does return (no height group of the
marker scanner raises `ValueError`) on a non-empty document, the returned
resume index is strictly below the document length, on every path. -/
theorem c2_resume_point_in_bounds (content : List Line) (t lh : ℚ) (r : ℕ)
    (hne : content ≠ []) (h : find_resume_layer content t lh = some r) :
    r < content.length :=
  find_resume_layer_lt content t lh r hne h

/-- C2, witness: on the one-line document `["G1 Z0.5"]` the resolver returns
index 0, which the theorem places below the length 1. -/
theorem c2_witness : (0 : ℕ) < c2wdemo.length :=
  c2_resume_point_in_bounds c2wdemo 1 (mkRat 1 5) 0 (by decide) (by decide)

/-- C3: the legacy path does not pair each marker with the first motion value
after it.  On `c3demo` (markers at lines 0 and 2, motion `z=0.1` at line 1 and
`z=5.0` at line 3, target 5.0, layer height 0.2) the code returns line 0,
because the inner loop keeps scanning past the first motion value after the
marker and accepts any later qualifying one; the pairing rule of the claim
(modelled by `legacyResumePerSpec`) selects line 2. -/
theorem c3_legacy_pairing_divergence :
    find_resume_layer c3demo 5 (mkRat 1 5) = some 0 ∧
    legacyResumePerSpec (find_layer_changes c3demo) (find_z_moves c3demo) (mkRat 24 5) = some 2 := by
  refine ⟨by decide, by decide⟩

/-- C4: on the spec's Scenario B document (first qualifying motion entry
`z=5.0` at line 12, comment-only line at line 9 inside the look-back window)
the resolver returns 11, the line of the immediately preceding motion entry,
not 9: the look-back inspects only lines that themselves produced motion
entries, and a comment-only line never does, so its comment test can never
succeed. -/
theorem c4_zonly_lookback_divergence :
    find_resume_layer c4demo 5 (mkRat 1 5) = some 11 ∧
    find_resume_by_z_only c4demo 5 (mkRat 1 5) = 11 ∧
    startsWithSemicolon (c4demo.getD 9 []) = true ∧
    zMoveVal? (c4demo.getD 12 []) = some 5 := by
  refine ⟨by decide, by decide, by decide, by decide⟩

/-- C5: the stripper is a sticky two-state machine.  Any leading run of
dropped lines (removal-pattern matches, droppable comments, empty lines)
followed by a first line that is non-empty and matches no removal condition
yields exactly that line and the entire remaining document, unchanged and in
order. -/
theorem c5_stripper_sticky_transition (pre post : List Line) (l : Line)
    (hpre : ∀ x ∈ pre, lineDropped x = true) (hl : lineDropped l = false) :
    remove_homing_and_start (pre ++ l :: post) = l :: post := by
  induction pre with
  | nil =>
    show (if lineDropped l = true then remove_homing_and_start post else l :: post) = l :: post
    rw [hl]
    simp
  | cons x xs ih =>
    have hx := hpre x (List.mem_cons_self x xs)
    show (if lineDropped x = true
        then remove_homing_and_start (xs ++ l :: post) else x :: (xs ++ l :: post))
      = l :: post
    rw [hx, if_pos rfl]
    exact ih (fun y hy => hpre y (List.mem_cons_of_mem x hy))

/-- C5, witness: two dropped setup lines, then a motion line, then a line that
would match a removal pattern: everything from the motion line on survives. -/
theorem c5_witness :
    remove_homing_and_start
        (["G28".data, "; setup".data] ++ ("G1 X0".data) :: [("M104 S0".data)])
      = ("G1 X0".data) :: [("M104 S0".data)] :=
  c5_stripper_sticky_transition ["G28".data, "; setup".data] [("M104 S0".data)]
    ("G1 X0".data) (by decide) (by decide)

lemma qSub_eq_sub (a b : ℚ) : qSub a b = a - b := by
  unfold qSub
  rw [Rat.mkRat_eq_div]
  have ha : ((a.den : ℚ)) ≠ 0 := by
    exact_mod_cast (Nat.pos_of_ne_zero a.den_nz).ne'
  have hb : ((b.den : ℚ)) ≠ 0 := by
    exact_mod_cast (Nat.pos_of_ne_zero b.den_nz).ne'
  conv_rhs => rw [← Rat.num_div_den a, ← Rat.num_div_den b]
  rw [div_sub_div _ _ ha hb]
  push_cast
  ring_nf

lemma qMul_eq_mul (a b : ℚ) : qMul a b = a * b := by
  unfold qMul
  rw [Rat.mkRat_eq_div]
  conv_rhs => rw [← Rat.num_div_den a, ← Rat.num_div_den b]
  rw [div_mul_div_comm]
  push_cast
  ring_nf

lemma qNeg_eq_neg (a : ℚ) : qNeg a = -a := by
  unfold qNeg
  rw [Rat.mkRat_eq_div]
  conv_rhs => rw [← Rat.num_div_den a]
  push_cast
  ring_nf

lemma qOfNat_eq_cast (n : ℕ) : qOfNat n = (n : ℚ) := by
  unfold qOfNat
  rw [Rat.mkRat_eq_div]
  rw [Int.ofNat_eq_natCast]
  push_cast
  ring_nf

/-- C10: a temperature whose resolved value is exactly 0 is treated by the
header synthesizer exactly like an absent temperature (Python truthiness makes
`0` falsy in every `if self.bed_temp:` guard); and the extractor really does
produce the value 0 from a start-of-print macro carrying `BED=0`. -/
theorem c10_zero_temperature_as_absent (rh lh : ℚ) (bed hot : Option ℚ) :
    create_resume_header rh lh (some 0) hot = create_resume_header rh lh none hot
    ∧ create_resume_header rh lh bed (some 0) = create_resume_header rh lh bed none
    ∧ extract_temperatures [("PRINT_START BED=0 HOTEND=210".data)] = (some 0, some 210)
    ∧ truthy (some 0) = truthy none := by
  refine ⟨rfl, rfl, by decide, by decide⟩

/-- C7, counterexample: on the mixed-dialect document `c1demo`-like input
(`;LAYER_CHANGE`, then `; layer 1, z = 0.3`, then `;Z:0.6`) the marker scanner
back-dates the `;Z:` marker across the earlier `; layer` marker and emits
`[(1, 0.3), (0, 0.6)]`, which is not non-decreasing in line index. -/
theorem c7_counterexample :
    find_layer_changes_with_z c7demo = some [(1, mkRat 3 10), (0, mkRat 3 5)] ∧
    ¬ List.Pairwise (fun a b => a.1 ≤ b.1)
        [((1 : ℕ), mkRat 3 10), ((0 : ℕ), mkRat 3 5)] := by
  refine ⟨by decide, by decide⟩

/-- C7, amended: the motion scanner's output is always strictly increasing in
line index; the marker scanner's output is non-decreasing whenever no line of
the document matches the `; layer n, z =` dialect (so every marker comes from
the `;Z:` dialect, back-dating included).  With mixed dialects a back-dated
`;Z:` marker may precede an earlier `; layer` marker (see the
counterexample). -/
theorem c7_scanner_ordering (content : List Line) :
    (find_z_moves content).Pairwise (fun a b => a.1 < b.1)
    ∧ (∀ ms, find_layer_changes_with_z content = some ms →
        (∀ l ∈ content, layerZGroup? (pyStrip l) = none) →
        ms.Pairwise (fun a b => a.1 ≤ b.1)) := by
  refine ⟨find_z_moves_sorted content, ?_⟩
  intro ms h hd
  exact (markersFrom_sorted content content 0 ms
    (fun p hp => hd p.2 (enumFrom_mem_bounds 0 content p hp).2.2) h).2

/-- C7, witness: a pure `;Z:` document with back-dating; both scanner outputs
are ordered. -/
theorem c7_witness :
    (find_z_moves c7wdemo).Pairwise (fun a b => a.1 < b.1) ∧
    List.Pairwise (fun a b => a.1 ≤ b.1)
      [((0 : ℕ), mkRat 1 5), ((0 : ℕ), mkRat 2 5)] :=
  ⟨(c7_scanner_ordering c7wdemo).1,
   (c7_scanner_ordering c7wdemo).2 [((0 : ℕ), mkRat 1 5), ((0 : ℕ), mkRat 2 5)]
     (by decide) (by decide)⟩

/-- C1, counterexample: on the mixed-dialect document `c1demo` with
`target = 2/5` and `layerHeight = 1/5` (threshold `1/5`), the resolver returns
line 1, but the first marker in line order whose height reaches the threshold
is the back-dated marker at line 0: the scanner's output order is not line
order, and the resolver follows output order. -/
theorem c1_counterexample :
    find_resume_layer c1demo (mkRat 2 5) (mkRat 1 5) = some 1 ∧
    firstQualifyingLine [((1 : ℕ), mkRat 3 10), ((0 : ℕ), mkRat 3 5)] (mkRat 1 5) = some 0 ∧
    find_layer_changes_with_z c1demo = some [(1, mkRat 3 10), (0, mkRat 3 5)] ∧
    (mkRat 2 5 : ℚ) - mkRat 1 5 = mkRat 1 5 := by
  refine ⟨by decide, by decide, by decide, by rw [← qSub_eq_sub]; decide⟩

/-- C1, amended: with height-bearing markers present, the resolver returns
the line index of the first marker in the scanner's output order whose height
reaches `target - layerHeight`, or the last output marker's line index if none
qualifies; whenever the scanner's output is additionally sorted by line index
(for example on single-dialect documents), the returned index is exactly the
line index of the first qualifying marker in line order (the minimal
qualifying line index). -/
theorem c1_resolver_marker_selection (content : List Line) (t lh : ℚ)
    (ms : List (ℕ × ℚ)) (r : ℕ)
    (hms : find_layer_changes_with_z content = some ms)
    (hne : ms ≠ [])
    (hr : find_resume_layer content t lh = some r) :
    (match ms.find? (fun m => decide (t - lh ≤ m.2)) with
     | some m => r = m.1
     | none => r = (ms.getLastD (0, 0)).1)
    ∧ (List.Pairwise (fun a b => a.1 ≤ b.1) ms →
       (∃ m ∈ ms, t - lh ≤ m.2) →
       firstQualifyingLine ms (t - lh) = some r) := by
  have hpred : (fun m : ℕ × ℚ => decide (qSub t lh ≤ m.2))
      = (fun m : ℕ × ℚ => decide (t - lh ≤ m.2)) := by
    funext m
    rw [qSub_eq_sub]
  cases ms with
  | nil => exact absurd rfl hne
  | cons m0 ms' =>
    unfold find_resume_layer at hr
    rw [hms, hpred] at hr
    replace hr : (match (m0 :: ms').find? (fun m => decide (t - lh ≤ m.2)) with
        | some m => some m.1
        | none => some (((m0 :: ms').getLastD (0, 0)).1)) = some r := hr
    cases hf : (m0 :: ms').find? (fun m => decide (t - lh ≤ m.2)) with
    | some m =>
      rw [hf] at hr
      injection hr with hr
      constructor
      · exact hr.symm
      · intro hsort hex
        obtain ⟨l1, l2, hsplit, hfail⟩ := find?_split _ _ _ hf
        have hpm := List.find?_some hf
        unfold firstQualifyingLine
        rw [hsplit, List.filter_append]
        have hl1 : l1.filter (fun m : ℕ × ℚ => decide (t - lh ≤ m.2)) = [] := by
          rw [List.filter_eq_nil_iff]
          intro x hx
          rw [hfail x hx]
          simp
        have hfc : List.filter (fun x : ℕ × ℚ => decide (t - lh ≤ x.2)) (m :: l2)
            = m :: List.filter (fun x : ℕ × ℚ => decide (t - lh ≤ x.2)) l2 := by
          have hcond : (fun x : ℕ × ℚ => decide (t - lh ≤ x.2)) m = true := hpm
          rw [List.filter_cons, if_pos hcond]
        rw [hl1, List.nil_append, hfc, List.map_cons]
        rw [← hr]
        apply minNat?_cons_le
        intro b hb
        obtain ⟨mb, hmb, hfst⟩ := List.mem_map.mp hb
        have hmb2 : mb ∈ l2 := (List.mem_filter.mp hmb).1
        rw [hsplit] at hsort
        have hp2 := (List.pairwise_append.mp hsort).2.1
        have := (List.pairwise_cons.mp hp2).1 mb hmb2
        rw [← hfst]
        exact this
    | none =>
      rw [hf] at hr
      injection hr with hr
      constructor
      · exact hr.symm
      · intro _ hex
        obtain ⟨mq, hmq, hq2⟩ := hex
        rw [List.find?_eq_none] at hf
        exact absurd (decide_eq_true hq2) (by simpa using hf mq hmq)

/-- C1, witness: on the sorted single-dialect document `c1wdemo` the resolver
returns line 0, and the amended theorem identifies it with the minimal
qualifying line index. -/
theorem c1_witness :
    firstQualifyingLine [((0 : ℕ), mkRat 1 5), ((1 : ℕ), mkRat 2 5)]
      (mkRat 2 5 - mkRat 1 5) = some 0 :=
  (c1_resolver_marker_selection c1wdemo (mkRat 2 5) (mkRat 1 5)
      [((0 : ℕ), mkRat 1 5), ((1 : ℕ), mkRat 2 5)] 0
      (by decide) (by decide) (by decide)).2
    (by decide)
    ⟨((0 : ℕ), mkRat 1 5), by decide, by rw [← qSub_eq_sub]; decide⟩

/-- C6: the temperature extractor (i) scans only the first 500 lines; (ii) if
the scan reaches a line matching the start-of-print macro with both values
(no earlier break), both readings come from that line, overriding whatever
partial state `(b, h)` the individual directives had accumulated, and
scanning stops; (iii) with no macro line in the scanned prefix, the first
strictly-positive bed value and the first strictly-positive hotend value from
individual directives win. -/
theorem c6_temperature_extraction (content : List Line) :
    extract_temperatures content = extract_temperatures (content.take 500)
    ∧ (∀ (pre : List Line) (l : Line) (rest : List Line) (b h : Option ℕ) (pb ph : ℕ),
        content.take 500 = pre ++ l :: rest →
        extractRuns pre none none = some (b, h) →
        printStartBoth? (pyStrip l) = some (pb, ph) →
        extract_temperatures content = (some pb, some ph))
    ∧ ((∀ l ∈ content.take 500, printStartBoth? (pyStrip l) = none) →
        extract_temperatures content = (firstBed (content.take 500), firstHotend (content.take 500))) := by
  refine ⟨?_, ?_, ?_⟩
  · unfold extract_temperatures
    rw [List.take_take, min_self]
  · intro pre l rest b h pb ph hsplit hruns hps
    unfold extract_temperatures
    rw [hsplit, extractRuns_append pre (l :: rest) none none b h hruns]
    rw [extractScan_cons, hps]
  · intro hps
    unfold extract_temperatures
    rw [extractScan_no_ps _ none none hps]
    rfl

/-- C6, witness (Scenario D): on `c6demo` the `PRINT_START BED=85 HOTEND=230`
line at index 2 resolves both readings, even though the earlier `M140 S0`
matched a directive (value 0, not positive) and a later `M140 S60` follows. -/
theorem c6_witness : extract_temperatures c6demo = (some 85, some 230) :=
  (c6_temperature_extraction c6demo).2.1 [("M140 S0".data), ("; hello".data)]
    ("PRINT_START BED=85 HOTEND=230".data) [("M140 S60".data)] none none 85 230
    (by decide) (by decide) (by decide)

/-- C8: restricted to heating commands and the manual-heating warning
comments, the synthesized header consists of exactly: set and set-and-wait
commands for both heaters when both are known; the corresponding warning
comment plus set and set-and-wait for the one known heater when exactly one
is known; and the two warning comment lines with no heating command at all
when neither is known (`truthy` is Python truthiness, so 0 counts as not
known). -/
theorem c8_header_heating_commands (rh lh : ℚ) (bed hot : Option ℚ) :
    (create_resume_header rh lh bed hot).filter isHeatEmission =
      (if truthy bed && truthy hot then
        [bedSetLine (bed.getD 0), hotendSetLine (hot.getD 0),
         bedWaitLine (bed.getD 0), hotendWaitLine (hot.getD 0)]
      else if truthy bed then
        [hotendManualWarnLine, bedSetLine (bed.getD 0), bedWaitLine (bed.getD 0)]
      else if truthy hot then
        [bedManualWarnLine, hotendSetLine (hot.getD 0), hotendWaitLine (hot.getD 0)]
      else [noTempWarnLine1, noTempWarnLine2]) := by
  cases hb : truthy bed <;> cases hh : truthy hot <;>
    (unfold create_resume_header; rw [hb, hh]; rfl)

/-- C9: whenever the resolver returns, the output document is exactly the
synthesized header followed by a contiguous suffix of the input document
(`content.drop k` for a single `k`): no input line is duplicated, changed or
reordered, and the dropped lines form one contiguous prefix (the part before
the resume point plus the leading run the stripper removes). -/
theorem c9_output_header_plus_suffix (content : List Line) (rh lh : ℚ)
    (bedO hotO : Option ℚ) (r : ℕ)
    (h : find_resume_layer content rh lh = some r) :
    ∃ k, k ≤ content.length ∧
      process_gcode content rh lh bedO hotO =
        some (create_resume_header rh lh (resolvedTemps content bedO hotO).1
                (resolvedTemps content bedO hotO).2 ++ content.drop k) := by
  obtain ⟨j, hj, hdrop⟩ := remove_homing_suffix (content.drop r)
  have hr_le := find_resume_layer_le content rh lh r h
  have hlen : (content.drop r).length = content.length - r := by simp
  refine ⟨r + j, by omega, ?_⟩
  unfold process_gcode
  rw [h]
  show some (create_resume_header rh lh (resolvedTemps content bedO hotO).1
        (resolvedTemps content bedO hotO).2 ++ remove_homing_and_start (content.drop r))
      = some (create_resume_header rh lh (resolvedTemps content bedO hotO).1
        (resolvedTemps content bedO hotO).2 ++ content.drop (r + j))
  rw [hdrop, List.drop_drop]

/-- C9, witness: on the one-line document `["G1 Z1.0"]` the whole pipeline
returns the header followed by the untouched document (`k = 0`). -/
theorem c9_witness :
    ∃ k, k ≤ c9demo.length ∧
      process_gcode c9demo 1 (mkRat 1 5) none none =
        some (create_resume_header 1 (mkRat 1 5) (resolvedTemps c9demo none none).1
                (resolvedTemps c9demo none none).2 ++ c9demo.drop k) :=
  c9_output_header_plus_suffix c9demo 1 (mkRat 1 5) none none 0 (by decide)
